/-
Verification development for the ash-rt hardware ray-tracing pipeline.

Shallow embedding of the core computations of the repository:
 * `aligned_size` and `get_memory_type_index` (rt/src/main.rs),
 * `BufferResource::store` (rt/src/utils.rs),
 * the shader-binding-table repacking loop and region derivation
   (rt/src/utils.rs, `create_rt_sbt` and `create_rt_descriptor_sets`),
 * the command/event traces of `create_bottom_as`, `create_top_as`
   (rt/src/acceleration_structure.rs) and of the frame loop
   (src/main.rs, `App::main_loop`),
 * the acquire / present result handling of the frame loop.

Machine integers (u32, u64) are modelled as `Nat` with explicit wrapping
arithmetic modulo 2^32 / 2^64 where the source computes in fixed width.
-/
import Mathlib

namespace AshRt

/-! ### 32-bit wrapping arithmetic

The source computes `aligned_size` on `u32` values; release-mode Rust
arithmetic wraps modulo 2^32.  We model `u32` as `Nat` together with
explicit wrapping operations. -/

/-- Wrapping 32-bit addition. -/
def wadd32 (x y : Nat) : Nat := (x + y) % 4294967296

/-- Wrapping 32-bit subtraction. -/
def wsub32 (x y : Nat) : Nat := (x + 4294967296 - y % 4294967296) % 4294967296

/-- Bitwise complement on 32 bits (`!x` on a Rust `u32`). -/
def not32 (x : Nat) : Nat := x ^^^ 4294967295

/-- Shallow embedding of `aligned_size` (rt/src/main.rs):
`(value + alignment - 1) & !(alignment - 1)` computed on `u32`. -/
def aligned_size (value alignment : Nat) : Nat :=
  wsub32 (wadd32 value alignment) 1 &&& not32 (wsub32 alignment 1)

/-- The `as u32` cast of a `usize` value. -/
def u32cast (n : Nat) : Nat := n % 4294967296

/-- Wrapping 64-bit addition (device-address arithmetic on `u64`). -/
def wadd64 (x y : Nat) : Nat := (x + y) % 18446744073709551616

/-! ### Memory-type selection (rt/src/main.rs, `get_memory_type_index`) -/

/-- The fields of `vk::PhysicalDeviceMemoryProperties` that
`get_memory_type_index` reads: the number of valid memory types and, for
each index, that type's `property_flags` bitmask. -/
structure PhysicalDeviceMemoryProperties where
  memory_type_count : Nat
  memory_types : Nat → Nat

/-- The loop of `get_memory_type_index`: iterate `i` over the memory types
while shifting `type_bits` right once per iteration; return the first `i`
whose low bit of the shifted mask is set and whose property flags contain
`properties`.  `none` models falling out of the loop. -/
def gmtiLoop (memTypes : Nat → Nat) (properties : Nat) :
    Nat → Nat → Nat → Option Nat
  | _, 0, _ => none
  | i, fuel + 1, bits =>
    if bits &&& 1 = 1 ∧ memTypes i &&& properties = properties then some i
    else gmtiLoop memTypes properties (i + 1) fuel (bits / 2)

/-- Shallow embedding of `get_memory_type_index` (rt/src/main.rs):
on loop fall-through the function returns `0`. -/
def get_memory_type_index (props : PhysicalDeviceMemoryProperties)
    (type_bits properties : Nat) : Nat :=
  (gmtiLoop props.memory_types properties 0 props.memory_type_count type_bits).getD 0

/-! ### `BufferResource::store` (rt/src/utils.rs) -/

/-- An owned buffer handle as far as `store` is concerned: its recorded
byte size. -/
structure BufferResource where
  size : Nat

/-- Outcome of `BufferResource::store`: either the assertion
`self.size >= size_of_val(data)` fails and the function panics having
written nothing, or the copy runs and writes the listed byte offsets of
the mapped memory. -/
inductive StoreResult where
  | panicked : StoreResult
  | written : List Nat → StoreResult
deriving DecidableEq

/-- Shallow embedding of `BufferResource::store` for a slice of `count`
elements of `elemSize` bytes each (`size_of_val(data) = elemSize * count`).
The `ash::util::Align` copy uses `align_of::<T>()` as alignment, which
divides `size_of::<T>()`, so the copy is a contiguous write of exactly
`size_of_val(data)` bytes starting at offset 0 of the mapped memory. -/
def BufferResource.store (b : BufferResource) (elemSize count : Nat) : StoreResult :=
  let size := elemSize * count
  if b.size ≥ size then .written (List.range size) else .panicked

/-! ### Shader-binding-table repacking (rt/src/utils.rs, `create_rt_sbt`) -/

/-- `dst[start .. start+len].copy_from_slice(src)` on byte memory modelled
as a function from offsets to byte values. -/
def copySlice (dst : Nat → Nat) (start : Nat) (src : Nat → Nat) (len : Nat) :
    Nat → Nat :=
  fun p => if start ≤ p ∧ p < start + len then src (p - start) else dst p

/-- The repacking loop of `create_rt_sbt`: starting from
`table_data = vec![0u8; group_count * aligned]`, copy for each group `i`
the `handleSize`-byte handle `incoming[i*handleSize ..]` into offset
`i * alignedSz` of the table. -/
def sbtRepack (groupCount handleSize alignedSz : Nat) (incoming : Nat → Nat) :
    Nat → Nat :=
  (List.range groupCount).foldl
    (fun td i =>
      copySlice td (i * alignedSz) (fun j => incoming (i * handleSize + j)) handleSize)
    (fun _ => 0)

/-- `table_size = shader_group_count * handle_size_aligned`. -/
def sbtTableSize (groupCount alignedSz : Nat) : Nat := groupCount * alignedSz

/-- The same repacking loop with Rust slice-bounds semantics: indexing
`table_data[i*a .. i*a + h]` panics (`none`) when the end of the range
exceeds the table's length `len`. -/
def sbtRepackCheckedAux (len h a : Nat) (inc : Nat → Nat) (count : Nat) :
    Option (Nat → Nat) :=
  (List.range count).foldl
    (fun td? i =>
      td?.bind fun td =>
        if i * a + h ≤ len then
          some (copySlice td (i * a) (fun j => inc (i * h + j)) h)
        else none)
    (some fun _ => 0)

/-- The repacking loop of `create_rt_sbt` over the
`group_count * aligned`-byte table, with slice-bounds checking. -/
def sbtRepackChecked (groupCount handleSize alignedSz : Nat)
    (incoming : Nat → Nat) : Option (Nat → Nat) :=
  sbtRepackCheckedAux (sbtTableSize groupCount alignedSz) handleSize alignedSz
    incoming groupCount

/-! ### Shader groups and SBT regions
(rt/src/utils.rs, `create_rt_descriptor_sets` and `create_rt_sbt`) -/

inductive ShaderGroupType where
  | general
  | trianglesHitGroup
  | proceduralHitGroup
deriving DecidableEq

/-- One `vk::RayTracingShaderGroupCreateInfoKHR`; `none` models
`vk::SHADER_UNUSED_KHR`. -/
structure RayTracingShaderGroup where
  ty : ShaderGroupType
  general : Option Nat
  closest_hit : Option Nat
  any_hit : Option Nat
  intersection : Option Nat
deriving DecidableEq

/-- The `shader_groups` vector of `create_rt_descriptor_sets`:
group 0 = raygen, group 1 = procedural hit group, group 2 = miss. -/
def shader_groups : List RayTracingShaderGroup :=
  [⟨.general, some 0, none, none, none⟩,
   ⟨.proceduralHitGroup, none, some 1, none, some 2⟩,
   ⟨.general, some 3, none, none, none⟩]

/-- Number of hit groups among the pipeline's shader groups. -/
def hitGroupCount : Nat :=
  (shader_groups.filter fun g =>
    g.ty == ShaderGroupType.trianglesHitGroup ||
    g.ty == ShaderGroupType.proceduralHitGroup).length

inductive ShaderStage where
  | raygen
  | closestHit
  | intersection
  | miss
  | callable
deriving DecidableEq

/-- The `shader_stages` vector of `create_rt_descriptor_sets`: the pipeline
defines raygen, closest-hit, intersection and miss stages and no callable
stage. -/
def shader_stages : List ShaderStage :=
  [.raygen, .closestHit, .intersection, .miss]

/-- One `vk::StridedDeviceAddressRegionKHR`. -/
structure StridedDeviceAddressRegion where
  device_address : Nat
  stride : Nat
  size : Nat
deriving DecidableEq

/-- The four strided regions computed at the end of `create_rt_sbt`, in the
order (raygen, miss, hit, callable).  The callable region is
`StridedDeviceAddressRegionKHR::default()`, i.e. all zero.  Address
arithmetic is on `u64`. -/
def create_rt_sbt_regions (sbt_address handle_size_aligned : Nat) :
    StridedDeviceAddressRegion × StridedDeviceAddressRegion ×
    StridedDeviceAddressRegion × StridedDeviceAddressRegion :=
  (⟨sbt_address, handle_size_aligned, handle_size_aligned⟩,
   ⟨wadd64 sbt_address (2 * handle_size_aligned),
    handle_size_aligned, handle_size_aligned⟩,
   ⟨wadd64 sbt_address handle_size_aligned,
    handle_size_aligned, handle_size_aligned⟩,
   ⟨0, 0, 0⟩)

/-! ### Build-range records (rt/src/acceleration_structure.rs) -/

/-- One `vk::AccelerationStructureBuildRangeInfoKHR`. -/
structure AccelerationStructureBuildRangeInfo where
  primitive_count : Nat
  primitive_offset : Nat
  first_vertex : Nat
  transform_offset : Nat
deriving DecidableEq

/-- The BLAS build-range record of `create_bottom_as`: one AABB primitive. -/
def blas_build_range_info : AccelerationStructureBuildRangeInfo :=
  ⟨1, 0, 0, 0⟩

/-- The primitive counts passed to `get_acceleration_structure_build_sizes`
in `create_bottom_as`: the literal `&[1]`. -/
def blas_size_query_counts : List Nat := [1]

/-- The TLAS build-range record of `create_top_as`:
`primitive_count = instance_count as u32`. -/
def tlas_build_range_info (instance_count : Nat) :
    AccelerationStructureBuildRangeInfo :=
  ⟨u32cast instance_count, 0, 0, 0⟩

/-- The primitive counts passed to `get_acceleration_structure_build_sizes`
in `create_top_as`: the literal `&[build_range_info.primitive_count]`. -/
def tlas_size_query_counts (instance_count : Nat) : List Nat :=
  [(tlas_build_range_info instance_count).primitive_count]

/-- `create_instances` builds exactly three instance records
(`instances.len() == 3`). -/
def create_instances_count : Nat := 3

/-! ### Events and traces

The host-side driver calls and recorded commands of the build functions and
of the frame loop, as an explicit event alphabet. -/

inductive Fence where
  | drawCommandsReuse
  | swapchainAcquire
  | setupCommandsReuse
deriving DecidableEq

inductive CmdBuf where
  | draw
  | asBuild
deriving DecidableEq

inductive Buf where
  | aabb
  | blasStorage
  | blasScratch
  | instances
  | tlasStorage
  | tlasScratch
  | sbt
  | uniforms
deriving DecidableEq

inductive BarrierKind where
  | memory
  | buffer
  | image
deriving DecidableEq

/-- Vulkan pipeline-stage and access bitmask constants used by the
barriers that appear in the traces. -/
def STAGE_TOP_OF_PIPE : Nat := 0x1
def STAGE_TRANSFER : Nat := 0x1000
def STAGE_ALL_COMMANDS : Nat := 0x10000
def STAGE_RAY_TRACING_SHADER : Nat := 0x200000
def STAGE_ACCELERATION_STRUCTURE_BUILD : Nat := 0x2000000
def ACCESS_SHADER_READ : Nat := 0x20
def ACCESS_SHADER_WRITE : Nat := 0x40
def ACCESS_COLOR_ATTACHMENT_READ : Nat := 0x80
def ACCESS_TRANSFER_READ : Nat := 0x800
def ACCESS_TRANSFER_WRITE : Nat := 0x1000
def ACCESS_MEMORY_WRITE : Nat := 0x10000
def ACCESS_ACCELERATION_STRUCTURE_WRITE : Nat := 0x400000

inductive Ev where
  | waitForFences (f : Fence)
  | resetFences (f : Fence)
  | acquireNextImage (signalFence : Option Fence)
  | recreateSwapchain
  | allocateCommandBuffers (cb : CmdBuf)
  | resetCommandBuffer (cb : CmdBuf)
  | beginCommandBuffer (cb : CmdBuf)
  | endCommandBuffer (cb : CmdBuf)
  | cmdPipelineBarrier (cb : CmdBuf) (kind : BarrierKind)
      (srcStage dstStage srcAccess dstAccess : Nat)
  | cmdUpdateBuffer (cb : CmdBuf) (b : Buf)
  | cmdBindPipeline (cb : CmdBuf)
  | cmdBindDescriptorSets (cb : CmdBuf)
  | cmdTraceRays (cb : CmdBuf)
  | cmdCopyImage (cb : CmdBuf)
  | cmdBuildAccelerationStructures (cb : CmdBuf) (dst scratch : Buf)
      (primitiveCount : Nat)
  | queueSubmit (cbs : List CmdBuf) (signalFence : Option Fence)
  | queueWaitIdle
  | freeCommandBuffers (cb : CmdBuf)
  | queuePresent
  | createBuffer (b : Buf)
  | destroyBuffer (b : Buf)
  | getBufferDeviceAddress (b : Buf)
  | createAccelerationStructure (storage : Buf)
  | getBuildSizes (primitiveCounts : List Nat)
deriving DecidableEq

/-- Does an event reference the given buffer? -/
def usesBuffer (e : Ev) (b : Buf) : Bool :=
  match e with
  | .cmdUpdateBuffer _ b2 => b2 == b
  | .createBuffer b2 => b2 == b
  | .destroyBuffer b2 => b2 == b
  | .getBufferDeviceAddress b2 => b2 == b
  | .createAccelerationStructure b2 => b2 == b
  | .cmdBuildAccelerationStructures _ d s _ => d == b || s == b
  | _ => false

/-- Is the event a destruction of the given buffer? -/
def isDestroyOf (e : Ev) (b : Buf) : Bool :=
  match e with
  | .destroyBuffer b2 => b2 == b
  | _ => false

/-- The host-call / recorded-command trace of `create_bottom_as`
(rt/src/acceleration_structure.rs lines 60-169), in source order. -/
def create_bottom_as_trace : List Ev :=
  [.getBuildSizes blas_size_query_counts,
   .createBuffer .blasStorage,
   .createAccelerationStructure .blasStorage,
   .createBuffer .blasScratch,
   .getBufferDeviceAddress .blasScratch,
   .allocateCommandBuffers .asBuild,
   .beginCommandBuffer .asBuild,
   .cmdBuildAccelerationStructures .asBuild .blasStorage .blasScratch
     blas_build_range_info.primitive_count,
   .endCommandBuffer .asBuild,
   .queueSubmit [.asBuild] none,
   .queueWaitIdle,
   .freeCommandBuffers .asBuild,
   .destroyBuffer .blasScratch]

/-- The buffer retained in `create_bottom_as`'s return value
`(bottom_as, bottom_as_buffer)`. -/
def create_bottom_as_retained : Buf := .blasStorage

/-- The host-call / recorded-command trace of `create_top_as`
(rt/src/acceleration_structure.rs lines 247-385), in source order,
parametric in the instance count. -/
def create_top_as_trace (instance_count : Nat) : List Ev :=
  [.allocateCommandBuffers .asBuild,
   .beginCommandBuffer .asBuild,
   .cmdPipelineBarrier .asBuild .memory
     STAGE_TRANSFER STAGE_ACCELERATION_STRUCTURE_BUILD
     ACCESS_TRANSFER_WRITE ACCESS_ACCELERATION_STRUCTURE_WRITE,
   .getBufferDeviceAddress .instances,
   .getBuildSizes (tlas_size_query_counts instance_count),
   .createBuffer .tlasStorage,
   .createAccelerationStructure .tlasStorage,
   .createBuffer .tlasScratch,
   .getBufferDeviceAddress .tlasScratch,
   .cmdBuildAccelerationStructures .asBuild .tlasStorage .tlasScratch
     (tlas_build_range_info instance_count).primitive_count,
   .endCommandBuffer .asBuild,
   .queueSubmit [.asBuild] none,
   .queueWaitIdle,
   .freeCommandBuffers .asBuild,
   .destroyBuffer .tlasScratch]

/-- The buffer retained in `create_top_as`'s return value
`(top_as, top_as_buffer)`. -/
def create_top_as_retained : Buf := .tlasStorage

/-! ### The frame loop (src/main.rs, `App::main_loop`) -/

/-- Result codes a swapchain call can fail with. -/
inductive VkErr where
  | outOfDateKhr
  | surfaceLostKhr
  | deviceLost
deriving DecidableEq

/-- One iteration of `App::main_loop`, in source order, parametric in
whether the resized flag was set and in the error result (if any) of
`queue_present`. -/
def frame_trace (resized : Bool) (presentErr : Option VkErr) : List Ev :=
  [.waitForFences .swapchainAcquire,
   .resetFences .swapchainAcquire]
  ++ (if resized then [.recreateSwapchain] else [])
  ++ [.acquireNextImage (some .swapchainAcquire),
      .waitForFences .drawCommandsReuse,
      .resetFences .drawCommandsReuse,
      .resetCommandBuffer .draw,
      .beginCommandBuffer .draw,
      .cmdPipelineBarrier .draw .buffer
        STAGE_RAY_TRACING_SHADER STAGE_TRANSFER
        ACCESS_SHADER_READ ACCESS_TRANSFER_WRITE,
      .cmdUpdateBuffer .draw .uniforms,
      .cmdPipelineBarrier .draw .buffer
        STAGE_TRANSFER STAGE_RAY_TRACING_SHADER
        ACCESS_TRANSFER_WRITE ACCESS_SHADER_READ,
      .cmdBindPipeline .draw,
      .cmdBindDescriptorSets .draw,
      .cmdTraceRays .draw,
      .cmdPipelineBarrier .draw .image
        STAGE_TOP_OF_PIPE STAGE_TRANSFER
        0 (ACCESS_TRANSFER_WRITE ||| ACCESS_TRANSFER_READ),
      .cmdPipelineBarrier .draw .image
        STAGE_RAY_TRACING_SHADER STAGE_TRANSFER
        ACCESS_SHADER_WRITE (ACCESS_TRANSFER_WRITE ||| ACCESS_TRANSFER_READ),
      .cmdCopyImage .draw,
      .cmdPipelineBarrier .draw .image
        STAGE_TRANSFER STAGE_ALL_COMMANDS
        ACCESS_TRANSFER_WRITE ACCESS_COLOR_ATTACHMENT_READ,
      .cmdPipelineBarrier .draw .image
        STAGE_TRANSFER STAGE_ALL_COMMANDS
        ACCESS_TRANSFER_READ ACCESS_MEMORY_WRITE,
      .endCommandBuffer .draw,
      .queueSubmit [.draw] (some .drawCommandsReuse),
      .queuePresent]
  ++ (match presentErr with
      | some .outOfDateKhr => [.recreateSwapchain]
      | _ => [])

/-- Number of draw command buffers "in flight unwaited" after an event:
a queue submit that signals the draw-reuse fence puts one in flight; a
(blocking, infinite-timeout) wait on that fence retires it. -/
def stepInFlight (c : Nat) (e : Ev) : Nat :=
  match e with
  | .queueSubmit _ (some .drawCommandsReuse) => c + 1
  | .waitForFences .drawCommandsReuse => 0
  | _ => c

/-- All intermediate in-flight counts along a trace, starting from `c`. -/
def statesFrom (c : Nat) : List Ev → List Nat
  | [] => [c]
  | e :: es => c :: statesFrom (stepInFlight c e) es

/-- The in-flight count after running a whole trace from `c`. -/
def runInFlight (c : Nat) (tr : List Ev) : Nat := tr.foldl stepInFlight c

/-- The concatenated trace of a run of the frame loop, one
`(resized, presentErr)` pair per iteration. -/
def main_loop_trace (frames : List (Bool × Option VkErr)) : List Ev :=
  (frames.map fun fr => frame_trace fr.1 fr.2).flatten

/-- Does a queue-submit event signal the draw-commands-reuse fence?
(Vacuously true for non-submit events.) -/
def submitSignalsDrawReuse (e : Ev) : Bool :=
  match e with
  | .queueSubmit _ f => f == some Fence.drawCommandsReuse
  | _ => true

/-! ### Acquire / present result handling (src/main.rs, `App::main_loop`) -/

/-- How one frame-loop iteration ends with respect to the swapchain. -/
inductive FrameOutcome where
  | continued
  | recreatedSwapchain
  | panicked
deriving DecidableEq

/-- `acquire_next_image(..).unwrap()` (src/main.rs lines 158-166): any
error result, including `ERROR_OUT_OF_DATE_KHR`, panics. -/
def acquire_result_handling (r : Except VkErr (Nat × Bool)) : FrameOutcome :=
  match r with
  | .ok _ => .continued
  | .error _ => .panicked

/-- The `if let Err(code) = queue_present(..)` match (src/main.rs lines
402-412): `ERROR_OUT_OF_DATE_KHR` runs `recreate_swapchain`, every other
error is ignored, success continues. -/
def present_result_handling (r : Except VkErr Bool) : FrameOutcome :=
  match r with
  | .ok _ => .continued
  | .error .outOfDateKhr => .recreatedSwapchain
  | .error _ => .continued

theorem wadd_wsub_one (v a : Nat) (h1 : 1 ≤ v + a) (h2 : v + a ≤ 4294967296) :
    wsub32 (wadd32 v a) 1 = v + a - 1 := by
  unfold wadd32 wsub32
  omega

theorem wsub32_one (a : Nat) (h1 : 1 ≤ a) (h2 : a < 4294967296) :
    wsub32 a 1 = a - 1 := by
  unfold wsub32
  omega

/-- Complement of a low-bit mask: `!(2^k - 1)` on 32 bits is the high mask
`2^32 - 2^k`. -/
theorem not32_two_pow_sub_one (k : Nat) (hk : k ≤ 32) :
    not32 (2 ^ k - 1) = 2 ^ 32 - 2 ^ k := by
  have hmask : (2 : Nat) ^ 32 - 2 ^ k = (2 ^ (32 - k) - 1) <<< k := by
    rw [Nat.shiftLeft_eq, Nat.sub_mul, Nat.one_mul, ← Nat.pow_add]
    congr 2
    omega
  have h32 : (4294967295 : Nat) = 2 ^ 32 - 1 := by norm_num
  rw [hmask]
  apply Nat.eq_of_testBit_eq
  intro i
  rw [not32, h32]
  simp only [Nat.testBit_xor, Nat.testBit_two_pow_sub_one, Nat.testBit_shiftLeft]
  by_cases hik : k ≤ i
  · by_cases hi32 : i < 32
    · simp [hik, hi32, show ¬ i < k by omega, show i - k < 32 - k by omega]
    · simp [hik, hi32, show ¬ i < k by omega, show ¬ i - k < 32 - k by omega]
  · simp [show i < k by omega, show i < 32 by omega, hik]

/-- Masking with the high mask `2^32 - 2^k` rounds a 32-bit value down to a
multiple of `2^k`. -/
theorem land_high_mask (x k : Nat) (hx : x < 2 ^ 32) (hk : k ≤ 32) :
    x &&& (2 ^ 32 - 2 ^ k) = 2 ^ k * (x / 2 ^ k) := by
  have hmask : (2 : Nat) ^ 32 - 2 ^ k = (2 ^ (32 - k) - 1) <<< k := by
    rw [Nat.shiftLeft_eq, Nat.sub_mul, Nat.one_mul, ← Nat.pow_add]
    congr 2
    omega
  have hrhs : 2 ^ k * (x / 2 ^ k) = (x >>> k) <<< k := by
    rw [Nat.shiftRight_eq_div_pow, Nat.shiftLeft_eq, Nat.mul_comm]
  rw [hmask, hrhs]
  apply Nat.eq_of_testBit_eq
  intro i
  simp only [Nat.testBit_and, Nat.testBit_shiftLeft, Nat.testBit_shiftRight,
    Nat.testBit_two_pow_sub_one]
  by_cases hik : k ≤ i
  · by_cases hi32 : i < 32
    · simp [hik, show k + (i - k) = i by omega, show i - k < 32 - k by omega, ge_iff_le]
    · have hxi : x.testBit i = false := by
        apply Nat.testBit_lt_two_pow
        calc x < 2 ^ 32 := hx
          _ ≤ 2 ^ i := Nat.pow_le_pow_right (by norm_num) (by omega)
      have hxk : x.testBit (k + (i - k)) = false := by
        rwa [show k + (i - k) = i by omega]
      simp [hxi, hxk]
  · simp [ge_iff_le, hik]

/-- On inputs without 32-bit overflow, `aligned_size v (2^k)` is
`v + 2^k - 1` rounded down to a multiple of `2^k`. -/
theorem aligned_size_eq (v k : Nat) (hv : 0 < v)
    (hov : v + 2 ^ k - 1 < 2 ^ 32) :
    aligned_size v (2 ^ k) = 2 ^ k * ((v + 2 ^ k - 1) / 2 ^ k) := by
  have hak : (0 : Nat) < 2 ^ k := Nat.pos_pow_of_pos _ (by norm_num)
  have ha32 : (2 : Nat) ^ k < 2 ^ 32 := by omega
  have hk32 : k ≤ 32 := by
    by_contra hcon
    have : (2 : Nat) ^ 32 < 2 ^ k := Nat.pow_lt_pow_right (by norm_num) (by omega)
    omega
  unfold aligned_size
  rw [wadd_wsub_one v (2 ^ k) (by omega) (by omega),
    wsub32_one (2 ^ k) (by omega) (by norm_num at ha32 ⊢; omega),
    not32_two_pow_sub_one k hk32,
    land_high_mask (v + 2 ^ k - 1) k hov hk32]

/-- Rounding up: the aligned value dominates the input. -/
theorem aligned_size_ge (v k : Nat) (hv : 0 < v)
    (hov : v + 2 ^ k - 1 < 2 ^ 32) :
    v ≤ aligned_size v (2 ^ k) := by
  rw [aligned_size_eq v k hv hov]
  have hak : (0 : Nat) < 2 ^ k := Nat.pos_pow_of_pos _ (by norm_num)
  have hdm := Nat.div_add_mod (v + 2 ^ k - 1) (2 ^ k)
  have hm : (v + 2 ^ k - 1) % 2 ^ k < 2 ^ k := Nat.mod_lt _ hak
  set t := 2 ^ k * ((v + 2 ^ k - 1) / 2 ^ k) with ht
  omega

/-- The aligned value is a multiple of the alignment. -/
theorem aligned_size_dvd (v k : Nat) (hv : 0 < v)
    (hov : v + 2 ^ k - 1 < 2 ^ 32) :
    aligned_size v (2 ^ k) % 2 ^ k = 0 := by
  rw [aligned_size_eq v k hv hov]
  exact Nat.mul_mod_right _ _

/-- C4, counterexample: the general law as stated — `aligned_size(v,a) ≥ v`
for every `u32` value `v > 0` and power-of-two `a > 0`, in wrapping 32-bit
arithmetic — is false: at `v = 4294967295, a = 2` the addition
`v + a - 1` wraps and `aligned_size` returns `0 < v`. -/
theorem aligned_size_general_law_counterexample :
    ¬ (∀ v a : Nat, 0 < v → 0 < a → (∃ k, a = 2 ^ k) →
        v < 2 ^ 32 → a < 2 ^ 32 →
        v ≤ aligned_size v a ∧ aligned_size v a % a = 0) := by
  intro h
  have h1 := (h 4294967295 2 (by norm_num) (by norm_num) ⟨1, by norm_num⟩
    (by norm_num) (by norm_num)).1
  have h2 : aligned_size 4294967295 2 = 0 := by decide
  omega

/-- C4 (amended): `aligned_size(32,64) = 64` and `aligned_size(64,64) = 64`;
and for every `v > 0` and power-of-two `a > 0` such that `v + a - 1` does
not overflow 32 bits, `aligned_size(v,a) ≥ v` and
`aligned_size(v,a) % a = 0`. -/
theorem aligned_size_spec :
    aligned_size 32 64 = 64 ∧ aligned_size 64 64 = 64 ∧
    ∀ v a : Nat, 0 < v → 0 < a → (∃ k, a = 2 ^ k) → v + a - 1 < 2 ^ 32 →
      v ≤ aligned_size v a ∧ aligned_size v a % a = 0 := by
  refine ⟨by decide, by decide, ?_⟩
  rintro v a hv ha ⟨k, rfl⟩ hov
  exact ⟨aligned_size_ge v k hv hov, aligned_size_dvd v k hv hov⟩

/-- Witness for C4's amended law at `v = 96, a = 64`. -/
theorem aligned_size_spec_witness :
    0 < 96 ∧ 0 < 64 ∧ (∃ k : Nat, (64 : Nat) = 2 ^ k) ∧
    96 + 64 - 1 < 2 ^ 32 ∧
    (96 ≤ aligned_size 96 64 ∧ aligned_size 96 64 % 64 = 0) :=
  ⟨by norm_num, by norm_num, ⟨6, by norm_num⟩, by norm_num,
   aligned_size_spec.2.2 96 64 (by norm_num) (by norm_num) ⟨6, by norm_num⟩
     (by norm_num)⟩

/-! ### C9: `get_memory_type_index` -/

/-- If some index within the remaining fuel satisfies the bit-and-flags
condition, the loop finds one (the first such), and the index it returns
satisfies the condition. -/
theorem gmtiLoop_finds (memTypes : Nat → Nat) (p : Nat) :
    ∀ fuel i bits,
      (∃ j, j < fuel ∧ Nat.testBit bits j = true ∧
        memTypes (i + j) &&& p = p) →
      ∃ r j, gmtiLoop memTypes p i fuel bits = some r ∧ r = i + j ∧
        j < fuel ∧ Nat.testBit bits j = true ∧ memTypes r &&& p = p := by
  intro fuel
  induction fuel with
  | zero =>
    rintro i bits ⟨j, hj, _⟩
    omega
  | succ m ih =>
    rintro i bits ⟨j, hj, hbit, hmem⟩
    by_cases hc : bits &&& 1 = 1 ∧ memTypes i &&& p = p
    · refine ⟨i, 0, ?_, by omega, by omega, ?_, hc.2⟩
      · simp [gmtiLoop, hc]
      · have hb : bits % 2 = 1 := by
          have := hc.1
          rwa [Nat.and_one_is_mod] at this
        simp [Nat.testBit_zero, hb]
    · have hj0 : j ≠ 0 := by
        rintro rfl
        apply hc
        constructor
        · rw [Nat.and_one_is_mod]
          have := hbit
          rwa [Nat.testBit_zero, decide_eq_true_eq] at this
        · simpa using hmem
      obtain ⟨j1, rfl⟩ : ∃ j1, j = j1 + 1 := ⟨j - 1, by omega⟩
      have hbit1 : Nat.testBit (bits / 2) j1 = true := by
        rwa [Nat.testBit_div_two]
      have hmem1 : memTypes ((i + 1) + j1) &&& p = p := by
        have : (i + 1) + j1 = i + (j1 + 1) := by omega
        rwa [this]
      obtain ⟨r, j2, heq, hrij, hj2, hbit2, hmem2⟩ :=
        ih (i + 1) (bits / 2) ⟨j1, by omega, hbit1, hmem1⟩
      refine ⟨r, j2 + 1, ?_, by omega, by omega, ?_, hmem2⟩
      · simp only [gmtiLoop]
        rw [if_neg hc]
        exact heq
      · rwa [Nat.testBit_div_two] at hbit2

/-- C9, counterexample: when no memory type satisfies the required-bits
mask and property flags, the function falls through the loop and returns
`0`, which satisfies neither condition: with one memory type of empty
flags, mask `0` and requested flags `1`, it returns index `0` whose bit is
unset in the mask and whose flags do not contain the request. -/
theorem get_memory_type_index_counterexample :
    get_memory_type_index ⟨1, fun _ => 0⟩ 0 1 = 0 ∧
    ¬ (Nat.testBit 0 (get_memory_type_index ⟨1, fun _ => 0⟩ 0 1) = true ∧
       (0 : Nat) &&& 1 = 1) := by
  constructor
  · rfl
  · decide

/-- C9 (amended): whenever some memory type index below
`memory_type_count` has its bit set in the required-bits mask and property
flags containing the requested flags, `get_memory_type_index` returns an
index satisfying both conditions. -/
theorem get_memory_type_index_spec (props : PhysicalDeviceMemoryProperties)
    (type_bits properties : Nat)
    (hex : ∃ i, i < props.memory_type_count ∧
      Nat.testBit type_bits i = true ∧
      props.memory_types i &&& properties = properties) :
    get_memory_type_index props type_bits properties < props.memory_type_count ∧
    Nat.testBit type_bits
      (get_memory_type_index props type_bits properties) = true ∧
    props.memory_types (get_memory_type_index props type_bits properties) &&&
      properties = properties := by
  obtain ⟨i0, hi0, hbit0, hmem0⟩ := hex
  obtain ⟨r, j, heq, hrij, hj, hbit, hmem⟩ :=
    gmtiLoop_finds props.memory_types properties props.memory_type_count 0
      type_bits ⟨i0, hi0, hbit0, by simpa using hmem0⟩
  have hr : get_memory_type_index props type_bits properties = r := by
    unfold get_memory_type_index
    rw [heq]
    rfl
  rw [hr]
  exact ⟨by omega, by simpa [hrij] using hbit, hmem⟩

/-- Witness for C9's amended claim: two memory types where only index 1
matches mask `0b10` and flags `1`. -/
theorem get_memory_type_index_spec_witness :
    (∃ i, i < (2 : Nat) ∧ Nat.testBit 2 i = true ∧
      (if i = 1 then 3 else 0) &&& 1 = 1) ∧
    (get_memory_type_index ⟨2, fun i => if i = 1 then 3 else 0⟩ 2 1 < 2 ∧
     Nat.testBit 2 (get_memory_type_index ⟨2, fun i => if i = 1 then 3 else 0⟩ 2 1) = true ∧
     (if get_memory_type_index ⟨2, fun i => if i = 1 then 3 else 0⟩ 2 1 = 1
        then (3 : Nat) else 0) &&& 1 = 1) :=
  ⟨⟨1, by norm_num, by decide, by norm_num⟩,
   get_memory_type_index_spec ⟨2, fun i => if i = 1 then 3 else 0⟩ 2 1
     ⟨1, by norm_num, by decide, by norm_num⟩⟩

/-! ### C10: `BufferResource::store` -/

/-- C10: `store` asserts `size_of_val(data) ≤ self.size` and panics with
nothing written when the assertion fails; when it holds, the copy writes
exactly the byte offsets `0 .. size_of_val(data)`, all below the buffer's
recorded size. -/
theorem store_spec (b : BufferResource) (elemSize count : Nat) :
    (b.size < elemSize * count → b.store elemSize count = .panicked) ∧
    (elemSize * count ≤ b.size →
      b.store elemSize count = .written (List.range (elemSize * count)) ∧
      ∀ o ∈ List.range (elemSize * count), o < b.size) := by
  constructor
  · intro h
    unfold BufferResource.store
    rw [if_neg (by omega)]
  · intro h
    refine ⟨?_, ?_⟩
    · unfold BufferResource.store
      rw [if_pos (by omega)]
    · intro o ho
      rw [List.mem_range] at ho
      omega

/-- Witness for C10 at a 16-byte buffer storing 2 elements of 4 bytes. -/
theorem store_spec_witness :
    (4 * 2 ≤ (16 : Nat)) ∧
    (BufferResource.store ⟨16⟩ 4 2 = .written (List.range (4 * 2)) ∧
     ∀ o ∈ List.range (4 * 2), o < (16 : Nat)) :=
  ⟨by norm_num, (store_spec ⟨16⟩ 4 2).2 (by norm_num)⟩

/-! ### C5: stale-swapchain handling -/

/-- C5, counterexample: a stale-swapchain (`ERROR_OUT_OF_DATE_KHR`) result
on acquire-next-image is NOT recoverable — `acquire_next_image(..).unwrap()`
panics, a hard failure, instead of entering the resize path. -/
theorem stale_acquire_counterexample :
    acquire_result_handling (.error .outOfDateKhr) = .panicked ∧
    acquire_result_handling (.error .outOfDateKhr) ≠ .recreatedSwapchain := by
  decide

/-- C5 (amended): a stale-swapchain result on queue-present is recoverable —
it triggers the swapchain-recreation path and is never propagated as a hard
failure (no present result panics) — but a stale-swapchain result on
acquire-next-image is propagated through `unwrap` and panics. -/
theorem stale_swapchain_handling :
    present_result_handling (.error .outOfDateKhr) = .recreatedSwapchain ∧
    (∀ r, present_result_handling r ≠ .panicked) ∧
    acquire_result_handling (.error .outOfDateKhr) = .panicked := by
  refine ⟨rfl, ?_, rfl⟩
  rintro (e | b)
  · cases e <;> simp [present_result_handling]
  · simp [present_result_handling]

/-! ### C8: SBT handle repacking -/

theorem sbtRepack_succ (n h a : Nat) (inc : Nat → Nat) :
    sbtRepack (n + 1) h a inc =
      copySlice (sbtRepack n h a inc) (n * a) (fun j => inc (n * h + j)) h := by
  unfold sbtRepack
  rw [List.range_succ, List.foldl_append]
  rfl

/-- Offsets at or beyond the last written slot are untouched zero bytes. -/
theorem sbtRepack_high (n h a : Nat) (inc : Nat → Nat) (hha : h ≤ a) :
    ∀ p, n * a ≤ p → sbtRepack n h a inc p = 0 := by
  induction n with
  | zero => intro p _; rfl
  | succ m ih =>
    intro p hp
    rw [sbtRepack_succ]
    unfold copySlice
    have hsm : (m + 1) * a = m * a + a := Nat.succ_mul m a
    rw [if_neg (by omega)]
    exact ih p (by omega)

/-- Each handle's bytes land at its slot's start. -/
theorem sbtRepack_in (n h a : Nat) (inc : Nat → Nat) (hha : h ≤ a) :
    ∀ i, i < n → ∀ j, j < h →
      sbtRepack n h a inc (i * a + j) = inc (i * h + j) := by
  induction n with
  | zero => intro i hi; omega
  | succ m ih =>
    intro i hi j hj
    rw [sbtRepack_succ]
    unfold copySlice
    rcases Nat.lt_succ_iff_lt_or_eq.mp hi with him | rfl
    · have hlt : i * a + j < m * a := by
        have h1 : (i + 1) * a = i * a + a := Nat.succ_mul i a
        have h2 : (i + 1) * a ≤ m * a := Nat.mul_le_mul_right a him
        omega
      rw [if_neg (by omega)]
      exact ih i him j hj
    · rw [if_pos ⟨Nat.le_add_right _ _, by omega⟩]
      congr 1
      omega

/-- Slack bytes of each slot stay zero. -/
theorem sbtRepack_slack (n h a : Nat) (inc : Nat → Nat) (hha : h ≤ a) :
    ∀ i, i < n → ∀ j, h ≤ j → j < a →
      sbtRepack n h a inc (i * a + j) = 0 := by
  induction n with
  | zero => intro i hi; omega
  | succ m ih =>
    intro i hi j hjh hja
    rw [sbtRepack_succ]
    unfold copySlice
    rcases Nat.lt_succ_iff_lt_or_eq.mp hi with him | rfl
    · have hlt : i * a + j < m * a := by
        have h1 : (i + 1) * a = i * a + a := Nat.succ_mul i a
        have h2 : (i + 1) * a ≤ m * a := Nat.mul_le_mul_right a him
        omega
      rw [if_neg (by omega)]
      exact ih i him j hjh hja
    · rw [if_neg (by omega)]
      exact sbtRepack_high i h a inc hha _ (Nat.le_add_right _ _)

/-- When every slice stays within the table, the bounds-checked loop
succeeds and agrees with the unchecked copy loop. -/
theorem sbtRepackCheckedAux_eq (len h a : Nat) (inc : Nat → Nat) :
    ∀ count, (∀ i, i < count → i * a + h ≤ len) →
      sbtRepackCheckedAux len h a inc count = some (sbtRepack count h a inc) := by
  intro count
  induction count with
  | zero => intro _; rfl
  | succ m ih =>
    intro hb
    have hpre := ih fun i hi => hb i (Nat.lt_succ_of_lt hi)
    unfold sbtRepackCheckedAux at hpre ⊢
    rw [List.range_succ, List.foldl_append, hpre, List.foldl_cons,
      List.foldl_nil, Option.some_bind]
    rw [if_pos (hb m (Nat.lt_succ_self m))]
    rw [← sbtRepack_succ]

/-- C8, counterexample: the claim's universal quantification over the
handle size fails — at `h = 4294967295, base_alignment = 2` the 32-bit
computation of `aligned_size` wraps to an aligned slot size of `0`, and
with two groups the repacking loop's very first slice
`table_data[0 .. h]` is out of bounds of the empty table, so it panics and
no `n * a`-byte host buffer with the claimed contents is produced. -/
theorem create_rt_sbt_repack_counterexample :
    0 < (2 : Nat) ∧
    aligned_size 4294967295 2 = 0 ∧
    sbtRepackChecked 2 4294967295 (aligned_size 4294967295 2)
      (fun p => p) = none := by
  refine ⟨by norm_num, by decide, ?_⟩
  rfl

/-- C8 (amended): for group count `n > 0`, handle size `h > 0` and aligned
slot size `a = aligned_size(h, base_alignment)` with a power-of-two base
alignment and no 32-bit overflow in `aligned_size`, the repacking succeeds
and produces an `n * a`-byte table where each slot `i` starts with the `h`
handle bytes `incoming[i*h .. (i+1)*h)` and the remaining slack bytes of
the slot are zero. -/
theorem create_rt_sbt_repack_spec (n h al k : Nat) (inc : Nat → Nat)
    (_hn : 0 < n) (hh : 0 < h) (hal : al = 2 ^ k) (hov : h + al - 1 < 2 ^ 32) :
    sbtTableSize n (aligned_size h al) = n * aligned_size h al ∧
    sbtRepackChecked n h (aligned_size h al) inc =
      some (sbtRepack n h (aligned_size h al) inc) ∧
    (∀ i, i < n → ∀ j, j < h →
      sbtRepack n h (aligned_size h al) inc (i * aligned_size h al + j) =
        inc (i * h + j)) ∧
    (∀ i, i < n → ∀ j, h ≤ j → j < aligned_size h al →
      sbtRepack n h (aligned_size h al) inc (i * aligned_size h al + j) = 0) := by
  subst hal
  have hha : h ≤ aligned_size h (2 ^ k) := aligned_size_ge h k hh hov
  refine ⟨rfl, ?_, sbtRepack_in n h _ inc hha, sbtRepack_slack n h _ inc hha⟩
  apply sbtRepackCheckedAux_eq
  intro i hi
  have h1 : (i + 1) * aligned_size h (2 ^ k) =
      i * aligned_size h (2 ^ k) + aligned_size h (2 ^ k) :=
    Nat.succ_mul _ _
  have h2 : (i + 1) * aligned_size h (2 ^ k) ≤ n * aligned_size h (2 ^ k) :=
    Nat.mul_le_mul_right _ hi
  show i * aligned_size h (2 ^ k) + h ≤ n * aligned_size h (2 ^ k)
  omega

/-- Witness for C8 at `n = 3, h = 32, base alignment 64`. -/
theorem create_rt_sbt_repack_spec_witness :
    0 < 3 ∧ 0 < 32 ∧ (64 : Nat) = 2 ^ 6 ∧ 32 + 64 - 1 < 2 ^ 32 ∧
    (sbtTableSize 3 (aligned_size 32 64) = 3 * aligned_size 32 64 ∧
     sbtRepackChecked 3 32 (aligned_size 32 64) (fun p => p % 256) =
       some (sbtRepack 3 32 (aligned_size 32 64) (fun p => p % 256)) ∧
     (∀ i, i < 3 → ∀ j, j < 32 →
       sbtRepack 3 32 (aligned_size 32 64) (fun p => p % 256)
         (i * aligned_size 32 64 + j) = (fun p => p % 256) (i * 32 + j)) ∧
     (∀ i, i < 3 → ∀ j, 32 ≤ j → j < aligned_size 32 64 →
       sbtRepack 3 32 (aligned_size 32 64) (fun p => p % 256)
         (i * aligned_size 32 64 + j) = 0)) :=
  ⟨by norm_num, by norm_num, by norm_num, by norm_num,
   create_rt_sbt_repack_spec 3 32 64 6 (fun p => p % 256)
     (by norm_num) (by norm_num) (by norm_num) (by norm_num)⟩

/-! ### C3: SBT region derivation -/

/-- C3: the pipeline's positional group order is {raygen, hit group(s),
miss} with exactly one hit group and no callable stage; the SBT regions are
derived purely by position from the base device address: raygen at offset 0
with `size = stride = aligned`, the hit-group region at offset `aligned`
spanning `hitGroupCount` slots, the miss region a single slot at the offset
after the hit groups, and the callable region of size 0. -/
theorem create_rt_sbt_regions_spec (addr a : Nat)
    (hfit : addr + 2 * a < 2 ^ 64) :
    hitGroupCount = 1 ∧
    shader_stages.count ShaderStage.callable = 0 ∧
    (shader_groups.map fun g => g.ty) =
      [.general, .proceduralHitGroup, .general] ∧
    (create_rt_sbt_regions addr a).1.device_address = addr ∧
    (create_rt_sbt_regions addr a).1.size = a ∧
    (create_rt_sbt_regions addr a).1.stride = a ∧
    (create_rt_sbt_regions addr a).2.2.1.device_address = addr + a ∧
    (create_rt_sbt_regions addr a).2.2.1.size = hitGroupCount * a ∧
    (create_rt_sbt_regions addr a).2.2.1.stride = a ∧
    (create_rt_sbt_regions addr a).2.1.device_address =
      addr + (1 + hitGroupCount) * a ∧
    (create_rt_sbt_regions addr a).2.1.size = a ∧
    (create_rt_sbt_regions addr a).2.1.stride = a ∧
    (create_rt_sbt_regions addr a).2.2.2.size = 0 ∧
    (create_rt_sbt_regions addr a).2.2.2.stride = 0 := by
  have h1 : wadd64 addr a = addr + a := Nat.mod_eq_of_lt (by omega)
  have h2 : wadd64 addr (2 * a) = addr + 2 * a := Nat.mod_eq_of_lt (by omega)
  refine ⟨by decide, by decide, by decide, rfl, rfl, rfl, ?_, ?_, rfl, ?_, rfl,
    rfl, rfl, rfl⟩
  · simpa [create_rt_sbt_regions] using h1
  · show a = hitGroupCount * a
    have : hitGroupCount = 1 := by decide
    rw [this, Nat.one_mul]
  · show wadd64 addr (2 * a) = addr + (1 + hitGroupCount) * a
    have hg : hitGroupCount = 1 := by decide
    rw [hg, h2]

/-- Witness for C3 at `addr = 4096, aligned = 64`. -/
theorem create_rt_sbt_regions_spec_witness :
    4096 + 2 * 64 < 2 ^ 64 ∧
    (hitGroupCount = 1 ∧
     shader_stages.count ShaderStage.callable = 0 ∧
     (shader_groups.map fun g => g.ty) =
       [.general, .proceduralHitGroup, .general] ∧
     (create_rt_sbt_regions 4096 64).1.device_address = 4096 ∧
     (create_rt_sbt_regions 4096 64).1.size = 64 ∧
     (create_rt_sbt_regions 4096 64).1.stride = 64 ∧
     (create_rt_sbt_regions 4096 64).2.2.1.device_address = 4096 + 64 ∧
     (create_rt_sbt_regions 4096 64).2.2.1.size = hitGroupCount * 64 ∧
     (create_rt_sbt_regions 4096 64).2.2.1.stride = 64 ∧
     (create_rt_sbt_regions 4096 64).2.1.device_address =
       4096 + (1 + hitGroupCount) * 64 ∧
     (create_rt_sbt_regions 4096 64).2.1.size = 64 ∧
     (create_rt_sbt_regions 4096 64).2.1.stride = 64 ∧
     (create_rt_sbt_regions 4096 64).2.2.2.size = 0 ∧
     (create_rt_sbt_regions 4096 64).2.2.2.stride = 0) :=
  ⟨by norm_num, create_rt_sbt_regions_spec 4096 64 (by norm_num)⟩

/-! ### C2: TLAS instance-buffer barrier ordering -/

/-- C2: in `create_top_as`, a memory barrier with source stage TRANSFER /
source access TRANSFER_WRITE and destination stage
ACCELERATION_STRUCTURE_BUILD / destination access
ACCELERATION_STRUCTURE_WRITE is recorded into the build command buffer
after `begin_command_buffer` and before the
`cmd_build_acceleration_structures` command, which in turn precedes
`end_command_buffer` — for every instance count. -/
theorem tlas_barrier_precedes_build (n : Nat) :
    ∃ ib i j ie : Nat, ib < i ∧ i < j ∧ j < ie ∧
      (create_top_as_trace n).get? ib =
        some (.beginCommandBuffer .asBuild) ∧
      (create_top_as_trace n).get? i =
        some (.cmdPipelineBarrier .asBuild .memory
          STAGE_TRANSFER STAGE_ACCELERATION_STRUCTURE_BUILD
          ACCESS_TRANSFER_WRITE ACCESS_ACCELERATION_STRUCTURE_WRITE) ∧
      (create_top_as_trace n).get? j =
        some (.cmdBuildAccelerationStructures .asBuild .tlasStorage
          .tlasScratch (tlas_build_range_info n).primitive_count) ∧
      (create_top_as_trace n).get? ie =
        some (.endCommandBuffer .asBuild) :=
  ⟨1, 2, 9, 10, by norm_num, by norm_num, by norm_num, rfl, rfl, rfl, rfl⟩

/-! ### C6: scratch-buffer lifetime -/

/-- C6: in both `create_bottom_as` and `create_top_as`, the blocking
`queue_wait_idle` precedes the destruction of the scratch buffer, the
destruction is the last event before returning, no later event uses the
scratch buffer, and the returned, retained buffer is the
acceleration-structure backing buffer, which is never destroyed in the
function. -/
theorem scratch_destroyed_after_wait :
    (create_bottom_as_trace.get? 10 = some .queueWaitIdle ∧
     create_bottom_as_trace.get? 12 = some (.destroyBuffer .blasScratch) ∧
     (10 : Nat) < 12 ∧
     create_bottom_as_trace.length = 13 ∧
     (create_bottom_as_trace.drop 13).all
       (fun e => !usesBuffer e .blasScratch) = true ∧
     create_bottom_as_retained = .blasStorage ∧
     create_bottom_as_retained ≠ .blasScratch ∧
     create_bottom_as_trace.all
       (fun e => !isDestroyOf e .blasStorage) = true) ∧
    ∀ n : Nat,
      (create_top_as_trace n).get? 12 = some .queueWaitIdle ∧
      (create_top_as_trace n).get? 14 = some (.destroyBuffer .tlasScratch) ∧
      (12 : Nat) < 14 ∧
      (create_top_as_trace n).length = 15 ∧
      ((create_top_as_trace n).drop 15).all
        (fun e => !usesBuffer e .tlasScratch) = true ∧
      create_top_as_retained = .tlasStorage ∧
      create_top_as_retained ≠ .tlasScratch ∧
      (create_top_as_trace n).all
        (fun e => !isDestroyOf e .tlasStorage) = true := by
  refine ⟨by decide, fun n => ⟨rfl, rfl, by norm_num, rfl, rfl, rfl,
    by decide, rfl⟩⟩

/-! ### C7: primitive counts of size query and build range -/

/-- C7: for the BLAS, the size query receives `[1]` and the build-range
record carries `primitive_count = 1`; for the TLAS, the size query receives
exactly the build-range record's `primitive_count`, which is the
`instance_count as u32` cast (equal to `instance_count` for the program's
actual three instances).  The traces pass the identical count to the size
query and to the build command. -/
theorem primitive_counts_match :
    blas_size_query_counts = [blas_build_range_info.primitive_count] ∧
    blas_build_range_info.primitive_count = 1 ∧
    (∀ n : Nat, tlas_size_query_counts n =
      [(tlas_build_range_info n).primitive_count]) ∧
    (∀ n : Nat, (tlas_build_range_info n).primitive_count = u32cast n) ∧
    (tlas_build_range_info create_instances_count).primitive_count =
      create_instances_count ∧
    create_bottom_as_trace.get? 0 =
      some (.getBuildSizes [blas_build_range_info.primitive_count]) ∧
    create_bottom_as_trace.get? 7 =
      some (.cmdBuildAccelerationStructures .asBuild .blasStorage .blasScratch
        blas_build_range_info.primitive_count) ∧
    ∀ n : Nat,
      (create_top_as_trace n).get? 4 =
        some (.getBuildSizes [(tlas_build_range_info n).primitive_count]) ∧
      (create_top_as_trace n).get? 9 =
        some (.cmdBuildAccelerationStructures .asBuild .tlasStorage
          .tlasScratch (tlas_build_range_info n).primitive_count) :=
  ⟨rfl, rfl, fun _ => rfl, fun _ => rfl, rfl, rfl, rfl, fun _ => ⟨rfl, rfl⟩⟩

/-! ### C1: frame-loop draw-fence protocol -/

/-- Over one frame-loop iteration, starting from at most one draw command
buffer in flight, the in-flight count never exceeds one and ends at exactly
one (the `queue_submit` signalling the draw-reuse fence). -/
theorem frame_inFlight_invariant (r : Bool) (p : Option VkErr) (c : Nat)
    (hc : c ≤ 1) :
    (∀ s ∈ statesFrom c (frame_trace r p), s ≤ 1) ∧
    runInFlight c (frame_trace r p) = 1 := by
  interval_cases c <;> cases r <;> rcases p with _ | e <;>
    first
      | decide
      | (cases e <;> decide)

theorem statesFrom_cons (c : Nat) (x : Ev) (xs : List Ev) :
    statesFrom c (x :: xs) = c :: statesFrom (stepInFlight c x) xs := rfl

/-- Membership in the states of a concatenated trace splits at the
boundary. -/
theorem statesFrom_append (c : Nat) (xs ys : List Ev) (s : Nat)
    (hs : s ∈ statesFrom c (xs ++ ys)) :
    s ∈ statesFrom c xs ∨ s ∈ statesFrom (runInFlight c xs) ys := by
  induction xs generalizing c with
  | nil =>
    right
    simpa [runInFlight] using hs
  | cons x xs ih =>
    rw [List.cons_append, statesFrom_cons] at hs
    rcases List.mem_cons.mp hs with rfl | h
    · left
      rw [statesFrom_cons]
      exact List.mem_cons_self _ _
    · rcases ih (stepInFlight c x) h with hl | hr
      · left
        rw [statesFrom_cons]
        exact List.mem_cons_of_mem _ hl
      · right
        simpa [runInFlight, List.foldl_cons] using hr

/-- C1: in every frame-loop iteration, waiting on the draw-commands-reuse
fence precedes resetting it, which precedes resetting and re-recording the
draw command buffer, and the subsequent queue submit signals that same
fence (and it is the only submit); consequently, along any run of the loop
started with at most one draw command buffer in flight, at most one is in
flight unwaited at every instant. -/
theorem frame_loop_draw_protocol :
    (∀ (resized : Bool) (perr : Option VkErr),
      ∃ iw ir ic ib isub : Nat,
        iw < ir ∧ ir < ic ∧ ic < ib ∧ ib < isub ∧
        (frame_trace resized perr).get? iw =
          some (.waitForFences .drawCommandsReuse) ∧
        (frame_trace resized perr).get? ir =
          some (.resetFences .drawCommandsReuse) ∧
        (frame_trace resized perr).get? ic =
          some (.resetCommandBuffer .draw) ∧
        (frame_trace resized perr).get? ib =
          some (.beginCommandBuffer .draw) ∧
        (frame_trace resized perr).get? isub =
          some (.queueSubmit [.draw] (some .drawCommandsReuse))) ∧
    (∀ (resized : Bool) (perr : Option VkErr),
      ∀ e ∈ frame_trace resized perr, submitSignalsDrawReuse e = true) ∧
    (∀ (frames : List (Bool × Option VkErr)) (c : Nat), c ≤ 1 →
      ∀ s ∈ statesFrom c (main_loop_trace frames), s ≤ 1) := by
  refine ⟨?_, ?_, ?_⟩
  · intro r p
    cases r
    · exact ⟨3, 4, 5, 6, 19, by norm_num, by norm_num, by norm_num,
        by norm_num, rfl, rfl, rfl, rfl, rfl⟩
    · exact ⟨4, 5, 6, 7, 20, by norm_num, by norm_num, by norm_num,
        by norm_num, rfl, rfl, rfl, rfl, rfl⟩
  · intro r p
    cases r <;> rcases p with _ | e <;>
      first
        | decide
        | (cases e <;> decide)
  · intro frames
    induction frames with
    | nil =>
      intro c hc s hs
      simp only [main_loop_trace, List.map_nil, List.flatten_nil] at hs
      cases hs with
      | head => exact hc
      | tail _ h => cases h
    | cons f fs ih =>
      intro c hc s hs
      have hsplit : main_loop_trace (f :: fs) =
          frame_trace f.1 f.2 ++ main_loop_trace fs := by
        simp [main_loop_trace]
      rw [hsplit] at hs
      rcases statesFrom_append c _ _ s hs with hl | hr
      · exact (frame_inFlight_invariant f.1 f.2 c hc).1 s hl
      · rw [(frame_inFlight_invariant f.1 f.2 c hc).2] at hr
        exact ih 1 (le_refl 1) s hr

/-- Witness for C1: a two-frame run (one plain frame, one with resize and a
stale present) from an initially idle state keeps at most one draw command
buffer in flight. -/
theorem frame_loop_draw_protocol_witness :
    (0 : Nat) ≤ 1 ∧
    ∀ s ∈ statesFrom 0
      (main_loop_trace [(false, none), (true, some .outOfDateKhr)]), s ≤ 1 :=
  ⟨by norm_num,
   frame_loop_draw_protocol.2.2 [(false, none), (true, some .outOfDateKhr)] 0
     (by norm_num)⟩

end AshRt
